import Mathlib

/-!
Shallow embedding of the VISPR front-end (projects index page and its backend
gateway entity constructors), translated from the bundled TypeScript/JavaScript
source.

Numeric coordinate values of embedding points are opaque to every piece of
logic modelled here (they are only copied into plot series); they are modelled
as `Int`.  JavaScript out-of-range array indexing yields `undefined`; it is
modelled with `Option` (`List.get?`).  Fields of backend entities that are
copied verbatim and never inspected by the modelled logic (labels, prediction
metadata, width, height, eigenvalues, base-embedding metadata) are omitted
from the records.
-/

/-- A single embedding point, as produced by the `Embedding` entity
constructor (`src/services/analyses/embedding.ts`): a cluster identifier, an
attribution index and a coordinate vector. -/
structure EmbeddingPoint where
  cluster : Int
  attributionIndex : Nat
  value : List Int
deriving Repr, DecidableEq

/-- The part of the `Analysis` entity (`src/services/analyses/analysis.ts`)
that the page logic inspects: the ordered list of embedding points.  The other
copied fields (category/clustering/embedding names, eigenvalues,
base-embedding metadata) are never read by the modelled logic. -/
structure AnalysisData where
  embedding : List EmbeddingPoint
deriving Repr, DecidableEq

/-- One plot series handed to the rendering engine by `refreshPlot`
(`index.page.ts`).  The constant fields (`type`, `mode`, `marker`,
`hoverinfo`) are omitted.  `x`/`y` entries are `Option` because JavaScript
indexing past the end of the coordinate vector yields `undefined`. -/
structure GraphSeries where
  name : String
  x : List (Option Int)
  y : List (Option Int)
  attributionIndices : List Nat
deriving Repr, DecidableEq

/-- The cluster-deduplication loop of `refreshPlot`: fold over the cluster
identifiers, pushing each one that is not yet present (`indexOf === -1`) onto
the accumulator. -/
def dedupAppend (acc : List Int) (l : List Int) : List Int :=
  l.foldl (fun a c => if c ∈ a then a else a ++ [c]) acc

/-- The distinct cluster identifiers of an embedding, in order of first
appearance, exactly as collected by the first loop of
`IndexPage.prototype.refreshPlot`. -/
def plotClusters (emb : List EmbeddingPoint) : List Int :=
  dedupAppend [] (emb.map EmbeddingPoint.cluster)

/-- `IndexPage.prototype.refreshPlot`, as a pure function of the loaded
analysis' embedding list and the two axis dimension indices: one series per
distinct cluster (in order of first appearance), each carrying the cluster's
display name, the points' coordinates at the two axis indices, and the
parallel attribution-index array. -/
def refreshPlot (emb : List EmbeddingPoint) (h v : Nat) : List GraphSeries :=
  (plotClusters emb).map (fun cluster =>
    let embeddingsInCluster := emb.filter (fun e => e.cluster == cluster)
    { name := "Cluster " ++ toString cluster
      x := embeddingsInCluster.map (fun e => e.value.get? h)
      y := embeddingsInCluster.map (fun e => e.value.get? v)
      attributionIndices := embeddingsInCluster.map EmbeddingPoint.attributionIndex })

theorem dedupAppend_nil (acc : List Int) : dedupAppend acc [] = acc := rfl

theorem dedupAppend_cons (acc : List Int) (c : Int) (l : List Int) :
    dedupAppend acc (c :: l) = dedupAppend (if c ∈ acc then acc else acc ++ [c]) l := rfl

theorem mem_dedupAppend (x : Int) (l : List Int) :
    ∀ acc : List Int, x ∈ dedupAppend acc l ↔ x ∈ acc ∨ x ∈ l := by
  induction l with
  | nil => intro acc; simp [dedupAppend]
  | cons c l ih =>
      intro acc
      rw [dedupAppend_cons, ih]
      by_cases hc : c ∈ acc
      · simp only [if_pos hc, List.mem_cons]
        constructor
        · rintro (h | h)
          · exact Or.inl h
          · exact Or.inr (Or.inr h)
        · rintro (h | h | h)
          · exact Or.inl h
          · exact Or.inl (h ▸ hc)
          · exact Or.inr h
      · simp only [if_neg hc, List.mem_append, List.mem_singleton, List.mem_cons]
        tauto

theorem nodup_dedupAppend (l : List Int) :
    ∀ acc : List Int, acc.Nodup → (dedupAppend acc l).Nodup := by
  induction l with
  | nil => intro acc h; exact h
  | cons c l ih =>
      intro acc hacc
      rw [dedupAppend_cons]
      by_cases hc : c ∈ acc
      · rw [if_pos hc]; exact ih acc hacc
      · rw [if_neg hc]
        refine ih _ ?_
        refine (List.perm_append_singleton c acc).nodup_iff.mpr ?_
        exact List.nodup_cons.mpr ⟨hc, hacc⟩

theorem dedupAppend_concat (acc : List Int) (l : List Int) (c : Int) :
    dedupAppend acc (l ++ [c]) =
      if c ∈ dedupAppend acc l then dedupAppend acc l else dedupAppend acc l ++ [c] := by
  unfold dedupAppend
  rw [List.foldl_append]
  rfl

theorem flatMap_congr_mem {α β : Type} {f g : α → List β} :
    ∀ l : List α, (∀ x ∈ l, f x = g x) → l.flatMap f = l.flatMap g := by
  intro l
  induction l with
  | nil => intro _; rfl
  | cons a l ih =>
      intro hfg
      rw [List.flatMap_cons, List.flatMap_cons, hfg a (List.mem_cons_self a l),
        ih (fun x hx => hfg x (List.mem_cons_of_mem a hx))]

theorem flatMap_filter_perm {α : Type} (key : α → Int) :
    ∀ cs : List Int, cs.Nodup → ∀ l : List α, (∀ e ∈ l, key e ∈ cs) →
      (cs.flatMap (fun c => l.filter (fun e => key e == c))).Perm l := by
  intro cs
  induction cs with
  | nil =>
      intro _ l hcov
      have hl : l = [] :=
        List.eq_nil_iff_forall_not_mem.mpr (fun e he => by simpa using hcov e he)
      simp [hl]
  | cons c cs ih =>
      intro hnd l hcov
      have hc_not : c ∉ cs := (List.nodup_cons.mp hnd).1
      have hnd' : cs.Nodup := (List.nodup_cons.mp hnd).2
      rw [List.flatMap_cons]
      set l2 := l.filter (fun e => !(key e == c)) with hl2
      have hcongr : cs.flatMap (fun c' => l.filter (fun e => key e == c'))
          = cs.flatMap (fun c' => l2.filter (fun e => key e == c')) := by
        apply flatMap_congr_mem
        intro c' hc'
        rw [hl2, List.filter_filter]
        apply List.filter_congr
        intro e _
        by_cases h : key e = c'
        · have hcc : ¬ c' = c := fun hcc => hc_not (hcc ▸ hc')
          have hne : ¬ key e = c := fun hec => hcc (h.symm.trans hec)
          simp [h, hne, hcc]
        · simp [h]
      rw [hcongr]
      have hcov2 : ∀ e ∈ l2, key e ∈ cs := by
        intro e he
        rw [hl2] at he
        obtain ⟨hel, hpe⟩ := List.mem_filter.mp he
        rcases List.mem_cons.mp (hcov e hel) with h | h
        · exfalso
          simp only [Bool.not_eq_eq_eq_not, Bool.not_true, beq_eq_false_iff_ne] at hpe
          exact hpe h
        · exact h
      refine List.Perm.trans (List.Perm.append_left _ (ih hnd' l2 hcov2)) ?_
      rw [hl2]
      exact List.filter_append_perm _ l

/-- C1: For every loaded Analysis and every pair of axis indices, `refreshPlot`
partitions the embedding points by cluster identifier in stable order of first
appearance (a cluster is appended to the cluster list exactly when it first
appears), producing one series per distinct cluster such that the union of all
series' attribution-index arrays equals the full embedding list with no
duplicates and no points dropped (a permutation), a point with cluster id `k`
appears only in the series for `k` (each series holds exactly the points whose
cluster equals its cluster id), and each series' X and Y arrays are the
points' values at the horizontal and vertical axis indices, parallel to the
attribution-index array. -/
theorem refreshPlot_partitions_by_cluster (emb : List EmbeddingPoint) (h v : Nat) :
    (plotClusters emb).Nodup
    ∧ (∀ c, c ∈ plotClusters emb ↔ c ∈ emb.map EmbeddingPoint.cluster)
    ∧ (∀ e, plotClusters (emb ++ [e]) =
        if e.cluster ∈ plotClusters emb then plotClusters emb
        else plotClusters emb ++ [e.cluster])
    ∧ refreshPlot emb h v = (plotClusters emb).map (fun cluster =>
        { name := "Cluster " ++ toString cluster
          x := (emb.filter (fun e => e.cluster == cluster)).map (fun e => e.value.get? h)
          y := (emb.filter (fun e => e.cluster == cluster)).map (fun e => e.value.get? v)
          attributionIndices :=
            (emb.filter (fun e => e.cluster == cluster)).map EmbeddingPoint.attributionIndex })
    ∧ ((plotClusters emb).flatMap (fun c => emb.filter (fun e => e.cluster == c))).Perm emb
    ∧ ((refreshPlot emb h v).flatMap GraphSeries.attributionIndices).Perm
        (emb.map EmbeddingPoint.attributionIndex)
    ∧ (∀ s, s ∈ refreshPlot emb h v → s.x.length = s.attributionIndices.length
        ∧ s.y.length = s.attributionIndices.length) := by
  have hnodup : (plotClusters emb).Nodup :=
    nodup_dedupAppend (emb.map EmbeddingPoint.cluster) [] List.nodup_nil
  have hmem : ∀ c, c ∈ plotClusters emb ↔ c ∈ emb.map EmbeddingPoint.cluster := by
    intro c
    rw [plotClusters, mem_dedupAppend]
    simp
  have hcov : ∀ e ∈ emb, e.cluster ∈ plotClusters emb := by
    intro e he
    exact (hmem e.cluster).mpr (List.mem_map.mpr ⟨e, he, rfl⟩)
  have hperm : ((plotClusters emb).flatMap
      (fun c => emb.filter (fun e => e.cluster == c))).Perm emb :=
    flatMap_filter_perm EmbeddingPoint.cluster (plotClusters emb) hnodup emb hcov
  refine ⟨hnodup, hmem, ?_, rfl, hperm, ?_, ?_⟩
  · intro e
    rw [plotClusters, plotClusters, List.map_append]
    exact dedupAppend_concat [] (emb.map EmbeddingPoint.cluster) e.cluster
  · have h1 : (refreshPlot emb h v).flatMap GraphSeries.attributionIndices
        = (plotClusters emb).flatMap
            (fun c => (emb.filter (fun e => e.cluster == c)).map
              EmbeddingPoint.attributionIndex) := by
      rw [refreshPlot, List.flatMap_map]
    rw [h1, ← List.map_flatMap]
    exact List.Perm.map EmbeddingPoint.attributionIndex hperm
  · intro s hs
    obtain ⟨c, _, rfl⟩ := List.mem_map.mp hs
    constructor
    · simp
    · simp

/-- A dataset sample as constructed by the `Sample` entity constructor
(`src/services/dataset/sample.ts`).  Labels, width and height are copied
verbatim and never inspected; they are omitted. -/
structure Sample where
  index : Nat
  url : String
deriving Repr, DecidableEq

/-- The raw JSON payload for a `Sample`, as received from the backend. -/
structure SampleJson where
  index : Nat
  url : String
deriving Repr, DecidableEq

/-- The `Sample` constructor: copies the fields and, when the base URL is
truthy (a non-empty string), rewrites the relative URL to `baseUrl + url`. -/
def Sample.ofJson (sample : SampleJson) (baseUrl : String) : Sample :=
  { index := sample.index
    url := if baseUrl != "" then baseUrl ++ sample.url else sample.url }

/-- An attribution as constructed by the `Attribution` entity constructor
(`src/services/attributions/attribution.ts`).  `urls` models the
color-map-name-to-heatmap-URL object as an association list.  Labels,
prediction, width and height are copied verbatim and never inspected; they are
omitted.  `sample` is the field later assigned by `onSelectedAsync` (absent
after construction). -/
structure Attribution where
  index : Nat
  url : String
  urls : List (String × String)
  sample : Option Sample
deriving Repr, DecidableEq

/-- The raw JSON payload for an `Attribution`, as received from the backend. -/
structure AttributionJson where
  index : Nat
  url : String
  urls : List (String × String)
deriving Repr, DecidableEq

/-- The `Attribution` constructor: copies the fields and, when the base URL is
truthy, rewrites `url` and every entry of `urls` to `baseUrl + url`. -/
def Attribution.ofJson (attribution : AttributionJson) (baseUrl : String) : Attribution :=
  if baseUrl != "" then
    { index := attribution.index
      url := baseUrl ++ attribution.url
      urls := attribution.urls.map (fun p => (p.1, baseUrl ++ p.2))
      sample := none }
  else
    { index := attribution.index
      url := attribution.url
      urls := attribution.urls
      sample := none }

/-- A color map as constructed by the `ColorMap` entity constructor
(`src/services/colorMaps/color-map.ts`). -/
structure ColorMap where
  name : String
  humanReadableName : String
  url : String
deriving Repr, DecidableEq

/-- The raw JSON payload for a `ColorMap`, as received from the backend. -/
structure ColorMapJson where
  name : String
  humanReadableName : String
  url : String
deriving Repr, DecidableEq

/-- The `ColorMap` constructor: copies the fields and, when the base URL is
truthy, rewrites the preview URL to `baseUrl + url`. -/
def ColorMap.ofJson (colorMap : ColorMapJson) (baseUrl : String) : ColorMap :=
  { name := colorMap.name
    humanReadableName := colorMap.humanReadableName
    url := if baseUrl != "" then baseUrl ++ colorMap.url else colorMap.url }

theorem append_ne_double_append (base s : String) (hb : base ≠ "") :
    base ++ s ≠ base ++ (base ++ s) := by
  intro hcontra
  have hlen := congrArg String.length hcontra
  rw [String.length_append, String.length_append, String.length_append] at hlen
  have hb0 : base.length ≠ 0 := by
    intro h0
    exact hb (String.ext (List.length_eq_zero.mp h0))
  omega

/-- C4: For every fetched Sample, Attribution and ColorMap, each URL field of
the constructed entity equals the configured (non-empty) base URL prepended
exactly once to the relative URL received from the backend, every entry of
`Attribution.urls` likewise, and never `base + base + relativeUrl`: a single
application of a constructor applies the prefix exactly once. -/
theorem url_prefixed_exactly_once (sj : SampleJson) (aj : AttributionJson)
    (cj : ColorMapJson) (base : String) (hb : base ≠ "") :
    (Sample.ofJson sj base).url = base ++ sj.url
    ∧ (Sample.ofJson sj base).url ≠ base ++ (base ++ sj.url)
    ∧ (Attribution.ofJson aj base).url = base ++ aj.url
    ∧ (Attribution.ofJson aj base).url ≠ base ++ (base ++ aj.url)
    ∧ (Attribution.ofJson aj base).urls = aj.urls.map (fun p => (p.1, base ++ p.2))
    ∧ (ColorMap.ofJson cj base).url = base ++ cj.url
    ∧ (ColorMap.ofJson cj base).url ≠ base ++ (base ++ cj.url) := by
  have hbt : (base != "") = true := bne_iff_ne.mpr hb
  simp only [Sample.ofJson, Attribution.ofJson, ColorMap.ofJson, hbt, if_pos,
    true_and, and_true]
  exact ⟨append_ne_double_append base sj.url hb,
    append_ne_double_append base aj.url hb,
    append_ne_double_append base cj.url hb⟩

theorem url_prefixed_exactly_once_witness :
    ("http://srv" : String) ≠ ""
    ∧ ((Sample.ofJson ⟨3, "/a.png"⟩ "http://srv").url = "http://srv" ++ "/a.png"
      ∧ (Sample.ofJson ⟨3, "/a.png"⟩ "http://srv").url
          ≠ "http://srv" ++ ("http://srv" ++ "/a.png")
      ∧ (Attribution.ofJson ⟨4, "/h.png", [("gray", "/u1.png")]⟩ "http://srv").url
          = "http://srv" ++ "/h.png"
      ∧ (Attribution.ofJson ⟨4, "/h.png", [("gray", "/u1.png")]⟩ "http://srv").url
          ≠ "http://srv" ++ ("http://srv" ++ "/h.png")
      ∧ (Attribution.ofJson ⟨4, "/h.png", [("gray", "/u1.png")]⟩ "http://srv").urls
          = [("gray", "/u1.png")].map (fun p => (p.1, "http://srv" ++ p.2))
      ∧ (ColorMap.ofJson ⟨"gray", "Gray", "/c.png"⟩ "http://srv").url
          = "http://srv" ++ "/c.png"
      ∧ (ColorMap.ofJson ⟨"gray", "Gray", "/c.png"⟩ "http://srv").url
          ≠ "http://srv" ++ ("http://srv" ++ "/c.png")) :=
  ⟨by decide,
    url_prefixed_exactly_once ⟨3, "/a.png"⟩ ⟨4, "/h.png", [("gray", "/u1.png")]⟩
      ⟨"gray", "Gray", "/c.png"⟩ "http://srv" (by decide)⟩

/-- An analysis category (`src/services/projects/analysis-category.ts`). -/
structure AnalysisCategory where
  name : String
  humanReadableName : String
deriving Repr, DecidableEq

/-- An analysis method (`src/services/projects/analysis-method.ts`): name
plus its categories, clustering names and embedding names. -/
structure AnalysisMethod where
  name : String
  categories : List AnalysisCategory
  clusterings : List String
  embeddings : List String
deriving Repr, DecidableEq

/-- A project (`src/services/projects/project.ts`); only the fields read by
the page logic (id and analysis methods) are modelled. -/
structure Project where
  id : Nat
  analysisMethods : List AnalysisMethod
deriving Repr, DecidableEq

/-- The arguments of one `AnalysesService.getAsync` call: the key fields
interpolated into the request URL.  `projectId` is `Option` because the page
reads `this.project.id` without guarding on a loaded project. -/
structure AnalysisRequest where
  projectId : Option Nat
  method : String
  category : String
  clustering : String
  embedding : String
deriving Repr, DecidableEq

/-- JavaScript truthiness of an optional string: `undefined` and the empty
string are falsy. -/
def truthyStr : Option String → Bool
  | none => false
  | some s => s != ""

/-- The mutable state of `IndexPage` (`index.page.ts`), restricted to the
fields the modelled logic reads or writes, plus `analysisFetches`: the log of
arguments of all `AnalysesService.getAsync` calls issued so far (in order),
used to observe which Analysis fetches a transition triggers. -/
structure PageState where
  project : Option Project
  selectedAnalysisMethod : Option AnalysisMethod
  selectedCategory : Option AnalysisCategory
  selectedClustering : Option String
  selectedEmbedding : Option String
  horizontalAxisDimensionIndex : Nat
  verticalAxisDimensionIndex : Nat
  analysis : Option AnalysisData
  graphData : List GraphSeries
  selectedAttributions : Option (List Attribution)
  isLoading : Bool
  isLoadingSelection : Bool
  colorMaps : List ColorMap
  selectedColorMap : Option ColorMap
  analysisFetches : List AnalysisRequest
deriving Repr, DecidableEq

/-- `IndexPage.prototype.refreshPlot` as a state transition: a no-op when no
analysis is loaded, otherwise recomputes `graphData` from the loaded analysis
and the current axis indices. -/
def refreshPlotS (st : PageState) : PageState :=
  match st.analysis with
  | none => st
  | some a =>
      { st with graphData := (refreshPlot a.embedding
          st.horizontalAxisDimensionIndex st.verticalAxisDimensionIndex) }

/-- The `analysis` property setter: stores the value and refreshes the plot. -/
def setAnalysis (st : PageState) (value : Option AnalysisData) : PageState :=
  refreshPlotS { st with analysis := value }

/-- The guard and request construction of
`IndexPage.prototype.refreshAnalysisAsync`: `none` when any of the four
selection fields is falsy (unset, or an empty string for the clustering or
embedding names), otherwise the request that would be issued. -/
def analysisRequestOf (st : PageState) : Option AnalysisRequest :=
  match st.selectedAnalysisMethod, st.selectedCategory,
      st.selectedClustering, st.selectedEmbedding with
  | some m, some cat, some cl, some emb =>
      if cl != "" && emb != "" then
        some ⟨st.project.map Project.id, m.name, cat.name, cl, emb⟩
      else none
  | _, _, _, _ => none

/-- `IndexPage.prototype.refreshAnalysisAsync` as a state transition, with the
backend modelled by `oracle` (the Analysis the backend returns for a given
request): if any selection field is falsy, a no-op; otherwise sets the loading
flag, clears `selectedAttributions`, issues the fetch (logged in
`analysisFetches`), assigns the fetched analysis through the `analysis` setter
(which refreshes the plot), and clears the loading flag. -/
def refreshAnalysisAsyncS (oracle : AnalysisRequest → AnalysisData)
    (st : PageState) : PageState :=
  match analysisRequestOf st with
  | none => st
  | some req =>
      let st1 := { st with
        isLoading := true
        selectedAttributions := none
        analysisFetches := st.analysisFetches ++ [req] }
      let st2 := setAnalysis st1 (some (oracle req))
      { st2 with isLoading := false }

/-- The `horizontalAxisDimensionIndex` property setter: stores the value and
refreshes the plot. -/
def setHorizontalAxisDimensionIndex (st : PageState) (value : Nat) : PageState :=
  refreshPlotS { st with horizontalAxisDimensionIndex := value }

/-- The `verticalAxisDimensionIndex` property setter: stores the value and
refreshes the plot. -/
def setVerticalAxisDimensionIndex (st : PageState) (value : Nat) : PageState :=
  refreshPlotS { st with verticalAxisDimensionIndex := value }

/-- The `selectedCategory` property setter: stores the value and, when it is
truthy (a category object is present), refetches the analysis. -/
def setSelectedCategory (oracle : AnalysisRequest → AnalysisData)
    (st : PageState) (value : Option AnalysisCategory) : PageState :=
  let st1 := { st with selectedCategory := value }
  if value.isSome then refreshAnalysisAsyncS oracle st1 else st1

/-- The `selectedClustering` property setter: stores the value and, when it is
truthy (a non-empty string), refetches the analysis. -/
def setSelectedClustering (oracle : AnalysisRequest → AnalysisData)
    (st : PageState) (value : Option String) : PageState :=
  let st1 := { st with selectedClustering := value }
  if truthyStr value then refreshAnalysisAsyncS oracle st1 else st1

/-- The `selectedEmbedding` property setter: stores the value, resets both
axis dimension indices to 0 and 1, and, when the value is truthy, refetches
the analysis. -/
def setSelectedEmbedding (oracle : AnalysisRequest → AnalysisData)
    (st : PageState) (value : Option String) : PageState :=
  let st1 := { st with
    selectedEmbedding := value
    horizontalAxisDimensionIndex := 0
    verticalAxisDimensionIndex := 1 }
  if truthyStr value then refreshAnalysisAsyncS oracle st1 else st1

/-- The `selectedAnalysisMethod` property setter: stores the value; when it is
truthy, cascades through the `selectedCategory`, `selectedClustering` and
`selectedEmbedding` setters (the embedding preferring `"tsne"` when the method
offers it, otherwise the first listed embedding) and finally refetches the
analysis. -/
def setSelectedAnalysisMethod (oracle : AnalysisRequest → AnalysisData)
    (st : PageState) (value : Option AnalysisMethod) : PageState :=
  let st1 := { st with selectedAnalysisMethod := value }
  match value with
  | none => st1
  | some m =>
      let st2 := setSelectedCategory oracle st1 m.categories.head?
      let st3 := setSelectedClustering oracle st2 m.clusterings.head?
      let st4 :=
        if (m.embeddings.filter (fun embedding => embedding == "tsne")).length > 0 then
          setSelectedEmbedding oracle st3 (some "tsne")
        else
          setSelectedEmbedding oracle st3 m.embeddings.head?
      refreshAnalysisAsyncS oracle st4

/-- The color-map default selection performed at the end of
`IndexPage.prototype.ngOnInit`: the first color map named `black-fire-red`
when one exists, otherwise the first color map of the list (`undefined`,
i.e. `none`, when the list is empty). -/
def selectedColorMapAfterLoad (colorMaps : List ColorMap) : Option ColorMap :=
  let defaultColorMaps := colorMaps.filter (fun colorMap => colorMap.name == "black-fire-red")
  if defaultColorMaps.length > 0 then defaultColorMaps.head? else colorMaps.head?

/-- The color-map bootstrap step of `IndexPage.prototype.ngOnInit`: stores the
fetched color-map list and applies the default-selection policy. -/
def ngOnInitColorMaps (st : PageState) (fetched : List ColorMap) : PageState :=
  { st with
    colorMaps := fetched
    selectedColorMap := selectedColorMapAfterLoad fetched }

theorem refreshPlotS_fields (st : PageState) :
    (refreshPlotS st).project = st.project
    ∧ (refreshPlotS st).selectedAnalysisMethod = st.selectedAnalysisMethod
    ∧ (refreshPlotS st).selectedCategory = st.selectedCategory
    ∧ (refreshPlotS st).selectedClustering = st.selectedClustering
    ∧ (refreshPlotS st).selectedEmbedding = st.selectedEmbedding
    ∧ (refreshPlotS st).horizontalAxisDimensionIndex = st.horizontalAxisDimensionIndex
    ∧ (refreshPlotS st).verticalAxisDimensionIndex = st.verticalAxisDimensionIndex
    ∧ (refreshPlotS st).analysis = st.analysis
    ∧ (refreshPlotS st).selectedAttributions = st.selectedAttributions
    ∧ (refreshPlotS st).isLoading = st.isLoading
    ∧ (refreshPlotS st).isLoadingSelection = st.isLoadingSelection
    ∧ (refreshPlotS st).colorMaps = st.colorMaps
    ∧ (refreshPlotS st).selectedColorMap = st.selectedColorMap
    ∧ (refreshPlotS st).analysisFetches = st.analysisFetches := by
  unfold refreshPlotS
  split <;> simp

theorem refreshAnalysisAsyncS_fields (oracle : AnalysisRequest → AnalysisData)
    (st : PageState) :
    (refreshAnalysisAsyncS oracle st).project = st.project
    ∧ (refreshAnalysisAsyncS oracle st).selectedAnalysisMethod = st.selectedAnalysisMethod
    ∧ (refreshAnalysisAsyncS oracle st).selectedCategory = st.selectedCategory
    ∧ (refreshAnalysisAsyncS oracle st).selectedClustering = st.selectedClustering
    ∧ (refreshAnalysisAsyncS oracle st).selectedEmbedding = st.selectedEmbedding
    ∧ (refreshAnalysisAsyncS oracle st).horizontalAxisDimensionIndex
        = st.horizontalAxisDimensionIndex
    ∧ (refreshAnalysisAsyncS oracle st).verticalAxisDimensionIndex
        = st.verticalAxisDimensionIndex
    ∧ (refreshAnalysisAsyncS oracle st).isLoadingSelection = st.isLoadingSelection
    ∧ (refreshAnalysisAsyncS oracle st).colorMaps = st.colorMaps
    ∧ (refreshAnalysisAsyncS oracle st).selectedColorMap = st.selectedColorMap := by
  unfold refreshAnalysisAsyncS
  split <;> simp [setAnalysis, refreshPlotS]

theorem setSelectedCategory_fields (oracle : AnalysisRequest → AnalysisData)
    (st : PageState) (value : Option AnalysisCategory) :
    (setSelectedCategory oracle st value).selectedCategory = value
    ∧ (setSelectedCategory oracle st value).selectedAnalysisMethod
        = st.selectedAnalysisMethod
    ∧ (setSelectedCategory oracle st value).selectedClustering = st.selectedClustering
    ∧ (setSelectedCategory oracle st value).selectedEmbedding = st.selectedEmbedding
    ∧ (setSelectedCategory oracle st value).project = st.project
    ∧ (setSelectedCategory oracle st value).horizontalAxisDimensionIndex
        = st.horizontalAxisDimensionIndex
    ∧ (setSelectedCategory oracle st value).verticalAxisDimensionIndex
        = st.verticalAxisDimensionIndex := by
  unfold setSelectedCategory
  by_cases hv : value.isSome
  · simp only [hv, if_true]
    have h := refreshAnalysisAsyncS_fields oracle { st with selectedCategory := value }
    tauto
  · simp only [hv, if_false]
    simp

theorem setSelectedClustering_fields (oracle : AnalysisRequest → AnalysisData)
    (st : PageState) (value : Option String) :
    (setSelectedClustering oracle st value).selectedClustering = value
    ∧ (setSelectedClustering oracle st value).selectedAnalysisMethod
        = st.selectedAnalysisMethod
    ∧ (setSelectedClustering oracle st value).selectedCategory = st.selectedCategory
    ∧ (setSelectedClustering oracle st value).selectedEmbedding = st.selectedEmbedding
    ∧ (setSelectedClustering oracle st value).project = st.project
    ∧ (setSelectedClustering oracle st value).horizontalAxisDimensionIndex
        = st.horizontalAxisDimensionIndex
    ∧ (setSelectedClustering oracle st value).verticalAxisDimensionIndex
        = st.verticalAxisDimensionIndex := by
  unfold setSelectedClustering
  by_cases hv : truthyStr value
  · simp only [hv, if_true]
    have h := refreshAnalysisAsyncS_fields oracle { st with selectedClustering := value }
    tauto
  · simp only [hv, if_false]
    simp

theorem setSelectedEmbedding_fields (oracle : AnalysisRequest → AnalysisData)
    (st : PageState) (value : Option String) :
    (setSelectedEmbedding oracle st value).selectedEmbedding = value
    ∧ (setSelectedEmbedding oracle st value).selectedAnalysisMethod
        = st.selectedAnalysisMethod
    ∧ (setSelectedEmbedding oracle st value).selectedCategory = st.selectedCategory
    ∧ (setSelectedEmbedding oracle st value).selectedClustering = st.selectedClustering
    ∧ (setSelectedEmbedding oracle st value).project = st.project
    ∧ (setSelectedEmbedding oracle st value).horizontalAxisDimensionIndex = 0
    ∧ (setSelectedEmbedding oracle st value).verticalAxisDimensionIndex = 1 := by
  unfold setSelectedEmbedding
  by_cases hv : truthyStr value
  · simp only [hv, if_true]
    have h := refreshAnalysisAsyncS_fields oracle { st with
      selectedEmbedding := value
      horizontalAxisDimensionIndex := 0
      verticalAxisDimensionIndex := 1 }
    tauto
  · simp only [hv, if_false]
    simp

theorem refreshAnalysisAsyncS_fires (oracle : AnalysisRequest → AnalysisData)
    (st : PageState) (m : AnalysisMethod) (cat : AnalysisCategory) (cl emb : String)
    (hm : st.selectedAnalysisMethod = some m)
    (hcat : st.selectedCategory = some cat)
    (hcl : st.selectedClustering = some cl)
    (hemb : st.selectedEmbedding = some emb)
    (hcl' : cl ≠ "") (hemb' : emb ≠ "") :
    (refreshAnalysisAsyncS oracle st).analysisFetches
      = st.analysisFetches
        ++ [⟨st.project.map Project.id, m.name, cat.name, cl, emb⟩] := by
  have hreq : analysisRequestOf st
      = some ⟨st.project.map Project.id, m.name, cat.name, cl, emb⟩ := by
    unfold analysisRequestOf
    rw [hm, hcat, hcl, hemb]
    simp [bne_iff_ne.mpr hcl', bne_iff_ne.mpr hemb']
  unfold refreshAnalysisAsyncS
  rw [hreq]
  simp [setAnalysis, refreshPlotS]

/-- C3: Setting `selectedAnalysisMethod` to a non-empty method resets
`selectedCategory` to the method's first category, `selectedClustering` to the
method's first clustering, and `selectedEmbedding` to `"tsne"` if `"tsne"`
occurs among the method's embeddings and otherwise to the method's first
embedding; setting it to none performs no cascade (only the backing field
changes).  In particular, when `"tsne"` occurs among the embeddings and the
first category and a non-empty first clustering exist, the final Analysis
fetch is issued with `embedding = "tsne"`. -/
theorem selectedAnalysisMethod_cascade (oracle : AnalysisRequest → AnalysisData)
    (st : PageState) (m : AnalysisMethod) :
    (setSelectedAnalysisMethod oracle st (some m)).selectedAnalysisMethod = some m
    ∧ (setSelectedAnalysisMethod oracle st (some m)).selectedCategory
        = m.categories.head?
    ∧ (setSelectedAnalysisMethod oracle st (some m)).selectedClustering
        = m.clusterings.head?
    ∧ (setSelectedAnalysisMethod oracle st (some m)).selectedEmbedding
        = (if "tsne" ∈ m.embeddings then some "tsne" else m.embeddings.head?)
    ∧ setSelectedAnalysisMethod oracle st none
        = { st with selectedAnalysisMethod := none }
    ∧ (∀ p cat cl, st.project = some p → m.categories.head? = some cat →
        m.clusterings.head? = some cl → cl ≠ "" → "tsne" ∈ m.embeddings →
        (setSelectedAnalysisMethod oracle st (some m)).analysisFetches.getLast?
          = some ⟨some p.id, m.name, cat.name, cl, "tsne"⟩) := by
  set st1 : PageState := { st with selectedAnalysisMethod := some m } with hst1
  set st2 := setSelectedCategory oracle st1 m.categories.head? with hst2
  set st3 := setSelectedClustering oracle st2 m.clusterings.head? with hst3
  set st4 := (if (m.embeddings.filter (fun embedding => embedding == "tsne")).length > 0
      then setSelectedEmbedding oracle st3 (some "tsne")
      else setSelectedEmbedding oracle st3 m.embeddings.head?) with hst4
  have hdef : setSelectedAnalysisMethod oracle st (some m)
      = refreshAnalysisAsyncS oracle st4 := rfl
  have hcond : ((m.embeddings.filter (fun embedding => embedding == "tsne")).length > 0)
      ↔ "tsne" ∈ m.embeddings := by
    rw [gt_iff_lt, List.length_pos, Ne, List.filter_eq_nil_iff]
    push_neg
    constructor
    · rintro ⟨a, ha, hpa⟩
      rw [beq_iff_eq] at hpa
      exact hpa ▸ ha
    · intro hmem
      exact ⟨"tsne", hmem, by simp⟩
  obtain ⟨h2cat, h2m, h2cl, h2emb, h2proj, h2h, h2v⟩ :=
    setSelectedCategory_fields oracle st1 m.categories.head?
  obtain ⟨h3cl, h3m, h3cat, h3emb, h3proj, h3h, h3v⟩ :=
    setSelectedClustering_fields oracle st2 m.clusterings.head?
  obtain ⟨hvemb, hv⟩ : ∃ v, st4 = setSelectedEmbedding oracle st3 v
      ∧ v = (if "tsne" ∈ m.embeddings then some "tsne" else m.embeddings.head?) := by
    by_cases hc : "tsne" ∈ m.embeddings
    · exact ⟨some "tsne", by rw [hst4, if_pos (hcond.mpr hc)], by rw [if_pos hc]⟩
    · exact ⟨m.embeddings.head?,
        by rw [hst4, if_neg (fun h => hc (hcond.mp h))], by rw [if_neg hc]⟩
  obtain ⟨hv4, hvval⟩ := hv
  obtain ⟨h4emb, h4m, h4cat, h4cl, h4proj, h4h, h4v⟩ :=
    setSelectedEmbedding_fields oracle st3 hvemb
  rw [← hv4] at h4emb h4m h4cat h4cl h4proj h4h h4v
  obtain ⟨hFproj, hFm, hFcat, hFcl, hFemb, hFh, hFv, hFls, hFcm, hFscm⟩ :=
    refreshAnalysisAsyncS_fields oracle st4
  have hst4m : st4.selectedAnalysisMethod = some m := by
    rw [h4m, h3m, h2m]
  have hst4cat : st4.selectedCategory = m.categories.head? := by
    rw [h4cat, h3cat, h2cat]
  have hst4cl : st4.selectedClustering = m.clusterings.head? := by
    rw [h4cl, h3cl]
  have hst4emb : st4.selectedEmbedding
      = (if "tsne" ∈ m.embeddings then some "tsne" else m.embeddings.head?) := by
    rw [h4emb, hvval]
  have hst4proj : st4.project = st.project := by
    rw [h4proj, h3proj, h2proj]
  refine ⟨?_, ?_, ?_, ?_, rfl, ?_⟩
  · rw [hdef, hFm, hst4m]
  · rw [hdef, hFcat, hst4cat]
  · rw [hdef, hFcl, hst4cl]
  · rw [hdef, hFemb, hst4emb]
  · intro p cat cl hp hcat hcl hcl' htsne
    have hemb4 : st4.selectedEmbedding = some "tsne" := by
      rw [hst4emb, if_pos htsne]
    have hfires := refreshAnalysisAsyncS_fires oracle st4 m cat cl "tsne"
      hst4m (hst4cat.trans hcat) (hst4cl.trans hcl) hemb4 hcl'
      (by intro h; exact absurd h (by decide))
    rw [hdef, hfires, hst4proj, hp]
    exact List.getLast?_concat _

/-- A fully initialized page state used as a base for concrete scenarios. -/
def examplePageState : PageState :=
  { project := none
    selectedAnalysisMethod := none
    selectedCategory := none
    selectedClustering := none
    selectedEmbedding := none
    horizontalAxisDimensionIndex := 0
    verticalAxisDimensionIndex := 1
    analysis := none
    graphData := []
    selectedAttributions := none
    isLoading := false
    isLoadingSelection := false
    colorMaps := []
    selectedColorMap := none
    analysisFetches := [] }

/-- A backend stub that answers every Analysis request with an empty
embedding. -/
def analysisOracleEmpty : AnalysisRequest → AnalysisData := fun _ => ⟨[]⟩

/-- The analysis method of the end-to-end scenario: `"lrp"`, one category,
one clustering, embeddings `["tsne", "umap"]`. -/
def methodLrp : AnalysisMethod :=
  { name := "lrp"
    categories := [⟨"cat-1", "Category 1"⟩]
    clusterings := ["kmeans-5"]
    embeddings := ["tsne", "umap"] }

/-- The project of the end-to-end scenario. -/
def projectLrp : Project := { id := 1, analysisMethods := [methodLrp] }

/-- The page state of the end-to-end scenario: the project is loaded. -/
def pageStateLrp : PageState := { examplePageState with project := some projectLrp }

theorem selectedAnalysisMethod_cascade_witness :
    pageStateLrp.project = some projectLrp
    ∧ methodLrp.categories.head? = some ⟨"cat-1", "Category 1"⟩
    ∧ methodLrp.clusterings.head? = some "kmeans-5"
    ∧ ("kmeans-5" : String) ≠ ""
    ∧ "tsne" ∈ methodLrp.embeddings
    ∧ (setSelectedAnalysisMethod analysisOracleEmpty pageStateLrp
        (some methodLrp)).analysisFetches.getLast?
        = some ⟨some 1, "lrp", "cat-1", "kmeans-5", "tsne"⟩ :=
  ⟨rfl, rfl, rfl, by decide, by decide,
    (selectedAnalysisMethod_cascade analysisOracleEmpty pageStateLrp
        methodLrp).2.2.2.2.2
      projectLrp ⟨"cat-1", "Category 1"⟩ "kmeans-5" rfl rfl rfl
      (by decide) (by decide)⟩

/-- C8: For every value assigned to `selectedEmbedding`, the setter resets the
horizontal axis index to 0 and the vertical axis index to 1; and the Analysis
refetch never modifies the axis indices, so the reset happens before the
refetch is initiated and is still in place when the fetched Analysis is
applied. -/
theorem selectedEmbedding_resets_axes (oracle : AnalysisRequest → AnalysisData)
    (st : PageState) (value : Option String) :
    (setSelectedEmbedding oracle st value).horizontalAxisDimensionIndex = 0
    ∧ (setSelectedEmbedding oracle st value).verticalAxisDimensionIndex = 1
    ∧ (∀ s : PageState,
        (refreshAnalysisAsyncS oracle s).horizontalAxisDimensionIndex
          = s.horizontalAxisDimensionIndex
        ∧ (refreshAnalysisAsyncS oracle s).verticalAxisDimensionIndex
          = s.verticalAxisDimensionIndex) := by
  obtain ⟨_, _, _, _, _, hh, hv⟩ := setSelectedEmbedding_fields oracle st value
  refine ⟨hh, hv, ?_⟩
  intro s
  obtain ⟨_, _, _, _, _, hh2, hv2, _, _, _⟩ := refreshAnalysisAsyncS_fields oracle s
  exact ⟨hh2, hv2⟩

/-- C9: Assigning a value directly to `horizontalAxisDimensionIndex` or
`verticalAxisDimensionIndex` issues no Analysis fetch (the fetch log is
unchanged) and only recomputes `graphData` from the already-loaded Analysis;
every other state field is left unchanged. -/
theorem axis_setters_only_recompute_plot (st : PageState) (value : Nat) :
    ((setHorizontalAxisDimensionIndex st value).analysisFetches = st.analysisFetches
      ∧ (setHorizontalAxisDimensionIndex st value).horizontalAxisDimensionIndex = value
      ∧ (setHorizontalAxisDimensionIndex st value).verticalAxisDimensionIndex
          = st.verticalAxisDimensionIndex
      ∧ (setHorizontalAxisDimensionIndex st value).graphData
          = (match st.analysis with
             | none => st.graphData
             | some a => refreshPlot a.embedding value st.verticalAxisDimensionIndex)
      ∧ (setHorizontalAxisDimensionIndex st value).project = st.project
      ∧ (setHorizontalAxisDimensionIndex st value).selectedAnalysisMethod
          = st.selectedAnalysisMethod
      ∧ (setHorizontalAxisDimensionIndex st value).selectedCategory = st.selectedCategory
      ∧ (setHorizontalAxisDimensionIndex st value).selectedClustering
          = st.selectedClustering
      ∧ (setHorizontalAxisDimensionIndex st value).selectedEmbedding
          = st.selectedEmbedding
      ∧ (setHorizontalAxisDimensionIndex st value).analysis = st.analysis
      ∧ (setHorizontalAxisDimensionIndex st value).selectedAttributions
          = st.selectedAttributions
      ∧ (setHorizontalAxisDimensionIndex st value).isLoading = st.isLoading
      ∧ (setHorizontalAxisDimensionIndex st value).isLoadingSelection
          = st.isLoadingSelection
      ∧ (setHorizontalAxisDimensionIndex st value).colorMaps = st.colorMaps
      ∧ (setHorizontalAxisDimensionIndex st value).selectedColorMap
          = st.selectedColorMap)
    ∧ ((setVerticalAxisDimensionIndex st value).analysisFetches = st.analysisFetches
      ∧ (setVerticalAxisDimensionIndex st value).verticalAxisDimensionIndex = value
      ∧ (setVerticalAxisDimensionIndex st value).horizontalAxisDimensionIndex
          = st.horizontalAxisDimensionIndex
      ∧ (setVerticalAxisDimensionIndex st value).graphData
          = (match st.analysis with
             | none => st.graphData
             | some a => refreshPlot a.embedding st.horizontalAxisDimensionIndex value)
      ∧ (setVerticalAxisDimensionIndex st value).project = st.project
      ∧ (setVerticalAxisDimensionIndex st value).selectedAnalysisMethod
          = st.selectedAnalysisMethod
      ∧ (setVerticalAxisDimensionIndex st value).selectedCategory = st.selectedCategory
      ∧ (setVerticalAxisDimensionIndex st value).selectedClustering
          = st.selectedClustering
      ∧ (setVerticalAxisDimensionIndex st value).selectedEmbedding = st.selectedEmbedding
      ∧ (setVerticalAxisDimensionIndex st value).analysis = st.analysis
      ∧ (setVerticalAxisDimensionIndex st value).selectedAttributions
          = st.selectedAttributions
      ∧ (setVerticalAxisDimensionIndex st value).isLoading = st.isLoading
      ∧ (setVerticalAxisDimensionIndex st value).isLoadingSelection
          = st.isLoadingSelection
      ∧ (setVerticalAxisDimensionIndex st value).colorMaps = st.colorMaps
      ∧ (setVerticalAxisDimensionIndex st value).selectedColorMap
          = st.selectedColorMap) := by
  cases hA : st.analysis <;>
    simp [setHorizontalAxisDimensionIndex, setVerticalAxisDimensionIndex,
      refreshPlotS, hA]

/-- One selected data point of a rendering-engine selection event: the
parallel attribution-index array of the series the point belongs to
(`dataPoint.data.attributionIndices`) and the point's index within that
series (`dataPoint.pointIndex`). -/
structure SelPoint where
  attributionIndices : List Nat
  pointIndex : Nat
deriving Repr, DecidableEq

/-- The outcome of one `onSelectedAsync` run: the final page state, the
arguments of the Attribution fetches issued (phase one, in order; `none`
models a JavaScript `undefined` index from out-of-range point resolution),
and the arguments of the Sample fetches issued (phase two, in order). -/
structure SelOutcome where
  state : PageState
  attributionFetches : List (Option Nat)
  sampleFetches : List Nat
deriving Repr, DecidableEq

/-- Phase one of `IndexPage.prototype.onSelectedAsync`: resolve every event
point to its attribution index via the series' parallel array, then truncate
with `slice(0, 20)`. -/
def resolvedIndices (points : List SelPoint) : List (Option Nat) :=
  (points.map (fun p => p.attributionIndices.get? p.pointIndex)).take 20

/-- The attributions returned by the concurrent Attribution fetches of phase
one, with the backend modelled by `ao`. -/
def fetchedAttributions (points : List SelPoint)
    (ao : Option Nat → Attribution) : List Attribution :=
  (resolvedIndices points).map ao

/-- The samples returned by the concurrent Sample fetches of phase two: one
fetch per fetched attribution, keyed by that attribution's index, with the
backend modelled by `so`. -/
def fetchedSamples (points : List SelPoint) (ao : Option Nat → Attribution)
    (so : Nat → Sample) : List Sample :=
  ((fetchedAttributions points ao).map Attribution.index).map so

/-- The join loop of `onSelectedAsync`: each attribution's `sample` field is
assigned the first fetched sample whose index equals the attribution's index
(`filter(...)[0]`, which is `undefined`, i.e. `none`, when no sample
matches). -/
def joinedAttributions (points : List SelPoint) (ao : Option Nat → Attribution)
    (so : Nat → Sample) : List Attribution :=
  (fetchedAttributions points ao).map (fun attribution =>
    { attribution with sample :=
        ((fetchedSamples points ao so).filter
          (fun s => s.index == attribution.index)).head? })

/-- `IndexPage.prototype.onSelectedAsync` as a state transition.  An absent
event returns immediately.  Otherwise the points are resolved and truncated,
the attributions fetched, the samples fetched (one per attribution), the join
performed, and the final state carries the joined list with
`isLoadingSelection` back at `false` (it is `true` only during the run). -/
def onSelectedAsync (st : PageState) (eventInfo : Option (List SelPoint))
    (ao : Option Nat → Attribution) (so : Nat → Sample) : SelOutcome :=
  match eventInfo with
  | none => ⟨st, [], []⟩
  | some points =>
      ⟨{ st with
          selectedAttributions := some (joinedAttributions points ao so)
          isLoadingSelection := false },
        resolvedIndices points,
        (fetchedAttributions points ao).map Attribution.index⟩

/-- A backend stub for Attribution fetches: echoes the requested index. -/
def attributionOracleId : Option Nat → Attribution :=
  fun o => ⟨o.getD 0, "", [], none⟩

/-- A backend stub for Sample fetches: echoes the requested index. -/
def sampleOracleId : Nat → Sample := fun i => ⟨i, ""⟩

/-- C2: For every selection event with more than 20 resolved points,
`onSelectedAsync` truncates the resolved attribution-index list to exactly the
first 20 entries in event order before any fetching (the Attribution fetch
arguments are exactly that truncated list), so the resulting
`selectedAttributions` list has exactly 20 entries, corresponding to the first
20 points in event order; points beyond 20 are dropped. -/
theorem onSelected_truncates_to_20 (st : PageState) (points : List SelPoint)
    (ao : Option Nat → Attribution) (so : Nat → Sample)
    (hlen : 20 < points.length) :
    (onSelectedAsync st (some points) ao so).attributionFetches
      = (points.map (fun p => p.attributionIndices.get? p.pointIndex)).take 20
    ∧ (onSelectedAsync st (some points) ao so).attributionFetches.length = 20
    ∧ (∃ l, (onSelectedAsync st (some points) ao so).state.selectedAttributions
          = some l
        ∧ l.length = 20
        ∧ l.map Attribution.index
            = (onSelectedAsync st (some points) ao so).attributionFetches.map
                (fun o => (ao o).index)) := by
  have hfetch : (onSelectedAsync st (some points) ao so).attributionFetches
      = resolvedIndices points := rfl
  have hrlen : (resolvedIndices points).length = 20 := by
    rw [resolvedIndices, List.length_take, List.length_map]
    omega
  refine ⟨hfetch, by rw [hfetch, hrlen], joinedAttributions points ao so, rfl, ?_, ?_⟩
  · rw [joinedAttributions, fetchedAttributions, List.length_map, List.length_map, hrlen]
  · rw [joinedAttributions, fetchedAttributions, List.map_map, List.map_map, hfetch]
    rfl

theorem onSelected_truncates_to_20_witness :
    20 < (List.replicate 25 (⟨[7], 0⟩ : SelPoint)).length
    ∧ (onSelectedAsync examplePageState (some (List.replicate 25 ⟨[7], 0⟩))
        attributionOracleId sampleOracleId).attributionFetches.length = 20 :=
  ⟨by decide,
    (onSelected_truncates_to_20 examplePageState (List.replicate 25 ⟨[7], 0⟩)
      attributionOracleId sampleOracleId (by decide)).2.1⟩

/-- C5 counterexample: with a non-empty prior selection, an event whose point
list is empty is not a no-op: `onSelectedAsync` replaces
`selectedAttributions` by the empty list (only an absent event is guarded). -/
theorem onSelected_empty_event_not_noop :
    (onSelectedAsync
        { examplePageState with selectedAttributions := some [⟨5, "", [], none⟩] }
        (some []) attributionOracleId sampleOracleId).state.selectedAttributions
      ≠ ({ examplePageState with
            selectedAttributions := some [⟨5, "", [], none⟩] } :
          PageState).selectedAttributions := by
  decide

/-- C5 amended: an absent event is a complete no-op (state returned unchanged,
no Attribution or Sample fetch issued).  An event whose point list is empty
issues no Attribution or Sample fetches and leaves every state field other
than `selectedAttributions` and `isLoadingSelection` unchanged, but it sets
`selectedAttributions` to the empty list (not its previous value) and finishes
with `isLoadingSelection = false`. -/
theorem onSelected_empty_selection (st : PageState)
    (ao : Option Nat → Attribution) (so : Nat → Sample) :
    onSelectedAsync st none ao so = ⟨st, [], []⟩
    ∧ (onSelectedAsync st (some []) ao so).attributionFetches = []
    ∧ (onSelectedAsync st (some []) ao so).sampleFetches = []
    ∧ (onSelectedAsync st (some []) ao so).state.selectedAttributions = some []
    ∧ (onSelectedAsync st (some []) ao so).state.isLoadingSelection = false
    ∧ (onSelectedAsync st (some []) ao so).state.project = st.project
    ∧ (onSelectedAsync st (some []) ao so).state.selectedAnalysisMethod
        = st.selectedAnalysisMethod
    ∧ (onSelectedAsync st (some []) ao so).state.selectedCategory
        = st.selectedCategory
    ∧ (onSelectedAsync st (some []) ao so).state.selectedClustering
        = st.selectedClustering
    ∧ (onSelectedAsync st (some []) ao so).state.selectedEmbedding
        = st.selectedEmbedding
    ∧ (onSelectedAsync st (some []) ao so).state.horizontalAxisDimensionIndex
        = st.horizontalAxisDimensionIndex
    ∧ (onSelectedAsync st (some []) ao so).state.verticalAxisDimensionIndex
        = st.verticalAxisDimensionIndex
    ∧ (onSelectedAsync st (some []) ao so).state.analysis = st.analysis
    ∧ (onSelectedAsync st (some []) ao so).state.graphData = st.graphData
    ∧ (onSelectedAsync st (some []) ao so).state.isLoading = st.isLoading
    ∧ (onSelectedAsync st (some []) ao so).state.colorMaps = st.colorMaps
    ∧ (onSelectedAsync st (some []) ao so).state.selectedColorMap
        = st.selectedColorMap
    ∧ (onSelectedAsync st (some []) ao so).state.analysisFetches
        = st.analysisFetches :=
  ⟨rfl, rfl, rfl, rfl, rfl, rfl, rfl, rfl, rfl, rfl, rfl, rfl, rfl, rfl, rfl,
    rfl, rfl, rfl⟩

/-- C6 counterexample: a selection of two distinct points sharing attribution
index 5 issues two Sample fetches for index 5 — the Sample batch is issued per
resolved Attribution, not per distinct attribution index, so duplicate Sample
fetches do occur. -/
theorem onSelected_duplicate_sample_fetches :
    (onSelectedAsync examplePageState (some [⟨[5, 5], 0⟩, ⟨[5, 5], 1⟩])
        attributionOracleId sampleOracleId).sampleFetches = [5, 5]
    ∧ ¬ (onSelectedAsync examplePageState (some [⟨[5, 5], 0⟩, ⟨[5, 5], 1⟩])
        attributionOracleId sampleOracleId).sampleFetches.Nodup := by
  constructor
  · rfl
  · decide

/-- C6 amended: after the Attribution batch is fully resolved, the second
phase issues exactly one Sample fetch per resolved Attribution, in order,
keyed by that attribution's index (so the Sample fetch list equals the
Attribution fetch list mapped through the backend's returned index); duplicate
attribution indices among the resolved Attributions therefore yield duplicate
Sample fetches, not one fetch per distinct index. -/
theorem onSelected_sample_fetch_per_attribution (st : PageState)
    (points : List SelPoint) (ao : Option Nat → Attribution) (so : Nat → Sample) :
    (onSelectedAsync st (some points) ao so).sampleFetches
      = (onSelectedAsync st (some points) ao so).attributionFetches.map
          (fun o => (ao o).index)
    ∧ (onSelectedAsync st (some points) ao so).sampleFetches.length
      = (onSelectedAsync st (some points) ao so).attributionFetches.length := by
  constructor
  · show (fetchedAttributions points ao).map Attribution.index
      = (resolvedIndices points).map (fun o => (ao o).index)
    rw [fetchedAttributions, List.map_map]
    rfl
  · show ((fetchedAttributions points ao).map Attribution.index).length
      = (resolvedIndices points).length
    rw [List.length_map, fetchedAttributions, List.length_map]

/-- C7: For every completed `onSelectedAsync` run, each entry of the resulting
`selectedAttributions` list is joined with a Sample by index equality: when a
fetched Sample with the attribution's index exists, the attribution's `sample`
field holds a sample with equal index, and when no fetched Sample matches, the
`sample` field is left unset (`none`); the join is total (no exception).  The
resulting state's `selectedAttributions` is exactly the joined list. -/
theorem onSelected_join_by_index (points : List SelPoint)
    (ao : Option Nat → Attribution) (so : Nat → Sample) (a : Attribution)
    (ha : a ∈ joinedAttributions points ao so) :
    ((fetchedSamples points ao so).any (fun s => s.index == a.index) = true →
      ∃ s, a.sample = some s ∧ s.index = a.index)
    ∧ ((fetchedSamples points ao so).any (fun s => s.index == a.index) = false →
      a.sample = none)
    ∧ (∀ st, (onSelectedAsync st (some points) ao so).state.selectedAttributions
        = some (joinedAttributions points ao so)) := by
  obtain ⟨b, _, rfl⟩ := List.mem_map.mp ha
  refine ⟨?_, ?_, fun st => rfl⟩
  · intro hany
    obtain ⟨s, hs, hps⟩ := List.any_eq_true.mp hany
    have hmemf : s ∈ (fetchedSamples points ao so).filter
        (fun s => s.index == b.index) := List.mem_filter.mpr ⟨hs, hps⟩
    have hne : (fetchedSamples points ao so).filter
        (fun s => s.index == b.index) ≠ [] := List.ne_nil_of_mem hmemf
    refine ⟨((fetchedSamples points ao so).filter
        (fun s => s.index == b.index)).head hne, ?_, ?_⟩
    · show ((fetchedSamples points ao so).filter
          (fun s => s.index == b.index)).head? = some _
      exact List.head?_eq_head hne
    · have hmem := List.head_mem hne
      exact beq_iff_eq.mp (List.mem_filter.mp hmem).2
  · intro hany
    have hnil : (fetchedSamples points ao so).filter
        (fun s => s.index == b.index) = [] := by
      rw [List.filter_eq_nil_iff]
      intro s hs
      have := List.any_eq_false.mp hany s hs
      exact fun hp => this hp
    show ((fetchedSamples points ao so).filter
        (fun s => s.index == b.index)).head? = none
    rw [hnil]
    rfl

theorem onSelected_join_by_index_witness :
    (⟨5, "", [], some ⟨5, ""⟩⟩ : Attribution)
        ∈ joinedAttributions [⟨[5], 0⟩] attributionOracleId sampleOracleId
    ∧ (fetchedSamples [⟨[5], 0⟩] attributionOracleId sampleOracleId).any
        (fun s => s.index == (⟨5, "", [], some ⟨5, ""⟩⟩ : Attribution).index) = true
    ∧ ∃ s, (⟨5, "", [], some ⟨5, ""⟩⟩ : Attribution).sample = some s
        ∧ s.index = (⟨5, "", [], some ⟨5, ""⟩⟩ : Attribution).index :=
  ⟨by decide, by decide,
    (onSelected_join_by_index [⟨[5], 0⟩] attributionOracleId sampleOracleId
      ⟨5, "", [], some ⟨5, ""⟩⟩ (by decide)).1 (by decide)⟩

/-- C10: After the color-map list loads during initialization, the selected
color map is the first one whose machine name is `black-fire-red` when such a
color map is present, and otherwise the first color map in the list; for the
empty list the selection is `undefined` (`none`) — the policy is unguarded. -/
theorem colorMap_default_selection (cms : List ColorMap) :
    (cms.any (fun colorMap => colorMap.name == "black-fire-red") = true →
      ∃ m, selectedColorMapAfterLoad cms = some m ∧ m.name = "black-fire-red"
        ∧ m ∈ cms
        ∧ selectedColorMapAfterLoad cms
            = (cms.filter (fun colorMap => colorMap.name == "black-fire-red")).head?)
    ∧ (cms.any (fun colorMap => colorMap.name == "black-fire-red") = false →
      selectedColorMapAfterLoad cms = cms.head?)
    ∧ (∀ st, (ngOnInitColorMaps st cms).selectedColorMap
        = selectedColorMapAfterLoad cms)
    ∧ selectedColorMapAfterLoad [] = none := by
  refine ⟨?_, ?_, fun st => rfl, rfl⟩
  · intro hany
    obtain ⟨m0, hm0, hpm0⟩ := List.any_eq_true.mp hany
    have hmemf : m0 ∈ cms.filter (fun colorMap => colorMap.name == "black-fire-red") :=
      List.mem_filter.mpr ⟨hm0, hpm0⟩
    have hne : cms.filter (fun colorMap => colorMap.name == "black-fire-red") ≠ [] :=
      List.ne_nil_of_mem hmemf
    have hpos : (cms.filter
        (fun colorMap => colorMap.name == "black-fire-red")).length > 0 :=
      List.length_pos.mpr hne
    have hsel : selectedColorMapAfterLoad cms
        = (cms.filter (fun colorMap => colorMap.name == "black-fire-red")).head? := by
      simp only [selectedColorMapAfterLoad]
      rw [if_pos hpos]
    refine ⟨(cms.filter
        (fun colorMap => colorMap.name == "black-fire-red")).head hne, ?_, ?_, ?_, hsel⟩
    · rw [hsel]
      exact List.head?_eq_head hne
    · exact beq_iff_eq.mp (List.mem_filter.mp (List.head_mem hne)).2
    · exact (List.mem_filter.mp (List.head_mem hne)).1
  · intro hany
    have hnil : cms.filter (fun colorMap => colorMap.name == "black-fire-red") = [] := by
      rw [List.filter_eq_nil_iff]
      exact fun m hm hp => (List.any_eq_false.mp hany m hm) hp
    simp only [selectedColorMapAfterLoad]
    simp [hnil]

/-- A concrete color-map list in which `black-fire-red` is not first. -/
def colorMapListW : List ColorMap :=
  [⟨"gray", "Gray", "/g"⟩, ⟨"black-fire-red", "Black Fire Red", "/b"⟩]

theorem colorMap_default_selection_witness :
    colorMapListW.any (fun colorMap => colorMap.name == "black-fire-red") = true
    ∧ ∃ m, selectedColorMapAfterLoad colorMapListW = some m
        ∧ m.name = "black-fire-red"
        ∧ m ∈ colorMapListW
        ∧ selectedColorMapAfterLoad colorMapListW
            = (colorMapListW.filter
                (fun colorMap => colorMap.name == "black-fire-red")).head? :=
  ⟨by decide, (colorMap_default_selection colorMapListW).1 (by decide)⟩

/-- A concrete embedding with two clusters, cluster 0 appearing first and
third. -/
def embW : List EmbeddingPoint := [⟨0, 10, [1, 2]⟩, ⟨1, 11, [3, 4]⟩, ⟨0, 12, [5, 6]⟩]

/-- The series `refreshPlot` produces for cluster 0 of `embW` at axes 0, 1. -/
def seriesW : GraphSeries :=
  ⟨"Cluster 0", [some 1, some 5], [some 2, some 6], [10, 12]⟩

theorem refreshPlot_partitions_witness :
    seriesW ∈ refreshPlot embW 0 1
    ∧ seriesW.x.length = seriesW.attributionIndices.length
    ∧ seriesW.y.length = seriesW.attributionIndices.length :=
  ⟨by decide,
    ((refreshPlot_partitions_by_cluster embW 0 1).2.2.2.2.2.2 seriesW (by decide)).1,
    ((refreshPlot_partitions_by_cluster embW 0 1).2.2.2.2.2.2 seriesW (by decide)).2⟩
